import Mathlib

/-!
Verification of the benchopt hierarchical settings resolution engine
(`benchopt/config.py`): the type coercion module, the secure file locator,
the legacy format migrator, the settings store and the resolution engine
are embedded as pure Lean functions over an explicit file-system state,
and the behavioural properties of the module are proved against them.
-/

set_option autoImplicit false

namespace BenchoptConfig

/-- Python strings are modelled as lists of characters. -/
abbrev PyStr := List Char

/-- Shorthand turning a Lean string literal into the model string type. -/
def ch (s : String) : PyStr := s.toList

/-- Whitespace characters, as recognised by Python `str.split()` and
`str.strip()` (space, tab, newline, carriage return, vertical tab, form feed). -/
def pyIsSpace (c : Char) : Bool :=
  c == ' ' || c == '\t' || c == '\n' || c == '\r' || c == '\x0b' || c == '\x0c'

/-- Characters at which the implementation effectively separates list
items: any whitespace (through `str.split()`) or a comma. -/
def pySep (c : Char) : Bool := pyIsSpace c || c == ','

/-- Split a character list at every character satisfying `p`, keeping empty
fragments, as Python `str.split(sep)` does for an explicit separator. -/
def splitKeep (p : Char → Bool) : List Char → List (List Char)
  | [] => [[]]
  | c :: cs =>
    if p c then [] :: splitKeep p cs
    else
      match splitKeep p cs with
      | [] => [[c]]
      | t :: ts => (c :: t) :: ts

/-- Python `str.split()` with no argument: split on runs of whitespace and
drop all empty fragments. -/
def pySplitWs (s : PyStr) : List PyStr :=
  (splitKeep pyIsSpace s).filter (fun w => !w.isEmpty)

/-- Python `str.split(",")`: split at commas, keeping empty fragments. -/
def pySplitComma (s : PyStr) : List PyStr :=
  splitKeep (fun c => c == ',') s

/-- Python `str.strip()`: remove leading and trailing whitespace. -/
def pyStrip (s : PyStr) : PyStr :=
  ((s.dropWhile pyIsSpace).reverse.dropWhile pyIsSpace).reverse

/-- Python `sep.join(xs)`. -/
def pyJoin (sep : PyStr) : List PyStr → PyStr
  | [] => []
  | [x] => x
  | x :: xs => x ++ sep ++ pyJoin sep xs

/-- Python `str.lower()` (the characters appearing here are ASCII). -/
def pyLower (s : PyStr) : PyStr := s.map Char.toLower

/-- Python `str.upper()` (the characters appearing here are ASCII). -/
def pyUpper (s : PyStr) : PyStr := s.map Char.toUpper

/-- Runtime Python values handled by the engine: booleans, strings,
lists of strings, `None`, and mappings (used both for the `plot_configs`
default `{}` and for the sub-namespaces of a YAML document). -/
inductive PyVal where
  | bool : Bool → PyVal
  | str : PyStr → PyVal
  | list : List PyStr → PyVal
  | none : PyVal
  | dict : List (PyStr × PyVal) → PyVal

/-- Diagnostics emitted on the warning side channel (`warnings.warn`). -/
inductive Diag where
  | warnUnparsableBool : PyStr → Diag
  | warnDeprecatedIni : Diag
  | warnFileMode : Diag
  deriving DecidableEq

/-- Python exceptions that can escape the engine functions. -/
inductive PyErr where
  | assertionError : PyErr
  | attributeError : PyErr
  | keyError : PyStr → PyErr
  | yamlParseError : PyErr
  | missingSectionHeaderError : PyErr
  | typeError : PyErr
  | systemExit : Nat → PyStr → PyErr
  deriving DecidableEq

/-- The boolean token table `configparser.ConfigParser.BOOLEAN_STATES`. -/
def BOOLEAN_STATES : List (PyStr × Bool) :=
  [(ch "1", true), (ch "yes", true), (ch "true", true), (ch "on", true),
   (ch "0", false), (ch "no", false), (ch "false", false), (ch "off", false)]

/-- Embedding of `parse_value(value, default_value)` (config.py lines
255-279).  A textual value is coerced against the shape of the default:
booleans through `BOOLEAN_STATES` after lowercasing, with a warning and a
fall back to the default on an unknown token, lists by splitting on
whitespace and then on commas, dropping empty fragments and stripping.
The `assert isinstance(...)` statements of the source are embedded as
explicit `assertionError` results. -/
def parse_value (value default_value : PyVal) :
    Except PyErr (PyVal × List Diag) :=
  match default_value with
  | .bool _ =>
    match value with
    | .str s =>
      let low := pyLower s
      match List.lookup low BOOLEAN_STATES with
      | some b => .ok (.bool b, [])
      | Option.none => .ok (default_value, [.warnUnparsableBool low])
    | .bool b => .ok (.bool b, [])
    | _ => .error .assertionError
  | .list _ =>
    match value with
    | .str s =>
      let values := pySplitWs s
      let values := values.flatMap fun v =>
        ((pySplitComma v).filter (fun w => !w.isEmpty)).map pyStrip
      .ok (.list values, [])
    | .list l => .ok (.list l, [])
    | _ => .error .assertionError
  | _ => .ok (value, [])

/-- Embedding of `reverse_parse(default_value, value)` (config.py lines
282-296): serialise a typed value back to the textual form stored in the
configuration file.  Fidelity notes: a Python string never enters the
iterable branch; a non-string non-boolean value with a boolean default
hits `value.lower()` and raises `AttributeError`; joining a mapping
iterates over its keys. -/
def reverse_parse (default_value value : PyVal) : Except PyErr PyVal :=
  if (match value with | .bool _ => true | _ => false) ||
     (match default_value with | .bool _ => true | _ => false) then
    match value with
    | .bool b =>
      match default_value with
      | .bool _ => .ok (.str (if b then ch "true" else ch "false"))
      | _ => .error .assertionError
    | .str s =>
      if (List.lookup (pyLower s) BOOLEAN_STATES).isSome then .ok (.str s)
      else .error .assertionError
    | _ => .error .attributeError
  else
    match value with
    | .list l =>
      match default_value with
      | .list _ => .ok (.str ('\n' :: pyJoin (ch "\n") l))
      | _ => .error .assertionError
    | .dict d =>
      match default_value with
      | .list _ => .ok (.str ('\n' :: pyJoin (ch "\n") (d.map Prod.fst)))
      | _ => .error .assertionError
    | _ => .ok value

/-- File paths, structured as a directory part, a stem and a suffix, with
the operations `pathlib.Path` offers that the engine uses. -/
structure Path where
  dir : PyStr
  stem : PyStr
  suffix : PyStr
  deriving DecidableEq

/-- Python `path.with_suffix(s)`. -/
def Path.with_suffix (p : Path) (s : PyStr) : Path := { p with suffix := s }

/-- The mode `stat.S_IFREG | stat.S_IRUSR | stat.S_IWUSR` (octal 100600):
a regular file readable and writable by its owner only. -/
def GLOBAL_CONFIG_FILE_MODE : Nat := 33152

/-- Contents of a file on disk, tagged by the format it was serialised
in: sectioned INI text (as written by `ConfigParser.write` or found in a
legacy config file) or a YAML document (as written by `yaml.safe_dump`),
here a top-level insertion-ordered mapping.  A freshly touched empty file
is represented as INI text with no sections. -/
inductive FileContent where
  | iniText : List (PyStr × List (PyStr × PyStr)) → FileContent
  | ymlText : List (PyStr × PyVal) → FileContent

/-- A file on disk: its content and its permission mode bits. -/
structure FileRec where
  content : FileContent
  mode : Nat

/-- The file system, mapping paths to files. -/
abbrev FS := Path → Option FileRec

/-- Python `path.touch(mode=m)`: create an empty file with the given mode
if absent; an existing file keeps its content and its mode. -/
def fsTouch (fs : FS) (p : Path) (m : Nat) : FS :=
  match fs p with
  | some _ => fs
  | Option.none =>
    fun q => if q = p then some { content := .iniText [], mode := m } else fs q

/-- Opening a file with mode `w` and serialising into it: the content is
replaced, the mode of an existing file is kept (the engine always touches
a fresh file with the restrictive mode before writing it; 33188, octal
100644, stands for the default creation mode otherwise). -/
def fsWrite (fs : FS) (p : Path) (c : FileContent) : FS :=
  fun q =>
    if q = p then
      some { content := c,
             mode := match fs p with | some r => r.mode | Option.none => 33188 }
    else fs q

/-- The process environment, mapping variable names to values. -/
abbrev Env := PyStr → Option PyStr

/-- Registry of global options `DEFAULT_GLOBAL_CONFIG` (config.py lines
18-26).  The `shell` default reads `SHELL` from the environment when the
module is imported, so the registry is parameterised by the environment. -/
def DEFAULT_GLOBAL_CONFIG (env : Env) : List (PyStr × PyVal) :=
  [(ch "debug", .bool false),
   (ch "raise_install_error", .bool false),
   (ch "github_token", .none),
   (ch "data_dir", .str (ch "./data/")),
   (ch "conda_cmd", .str (ch "conda")),
   (ch "shell", .str ((env (ch "SHELL")).getD (ch "bash"))),
   (ch "cache", .none)]

/-- Modelled from the spec: `PLOT_KINDS` is imported from
`benchopt.constants`, a module that is not among the sources under
review.  The option documentation embedded in `config.py` (the `plots`
entry) enumerates exactly these four plot kinds, in this order. -/
def PLOT_KINDS : List PyStr :=
  [ch "objective_curve", ch "suboptimality_curve",
   ch "relative_suboptimality_curve", ch "bar_chart"]

/-- Registry of per-benchmark options `DEFAULT_BENCHMARK_CONFIG`
(config.py lines 44-46). -/
def DEFAULT_BENCHMARK_CONFIG : List (PyStr × PyVal) :=
  [(ch "plots", .list PLOT_KINDS), (ch "plot_configs", .dict [])]

/-- The project-local canonical config path `./benchopt.yml`. -/
def localConfigFile : Path :=
  { dir := ch ".", stem := ch "benchopt", suffix := ch ".yml" }

/-- The user-home canonical config path `~/.config/benchopt.yml`. -/
def homeConfigFile : Path :=
  { dir := ch "~/.config", stem := ch "benchopt", suffix := ch ".yml" }

/-- Embedding of the inner helper `check_ini` (lines 103-107): when a path
does not exist but its `.ini` sibling does, return the sibling. -/
def check_ini (fs : FS) (path : Path) : Path :=
  if (fs path).isNone && (fs (path.with_suffix (ch ".ini"))).isSome then
    path.with_suffix (ch ".ini")
  else path

/-- Security advisory of lines 113-123: warn when the resolved file exists
with a mode different from the expected owner-only mode. -/
def modeWarning (fs : FS) (p : Path) : List Diag :=
  match fs p with
  | some r => if r.mode == GLOBAL_CONFIG_FILE_MODE then [] else [.warnFileMode]
  | Option.none => []

/-- Embedding of `get_global_config_file()` (lines 91-125).  The
`BENCHOPT_CONFIG` environment override is modelled as an optional
already-parsed path; when it is set the file must exist (the `assert` of
lines 97-100), otherwise the project-local then the user-home candidates
are probed, each in canonical-or-legacy form. -/
def get_global_config_file (envConfig : Option Path) (fs : FS) :
    Except PyErr (Path × List Diag) :=
  match envConfig with
  | some p =>
    if (fs p).isNone then .error .assertionError
    else .ok (p, modeWarning fs p)
  | Option.none =>
    let p := check_ini fs localConfigFile
    let p := if (fs p).isNone then check_ini fs homeConfigFile else p
    .ok (p, modeWarning fs p)

/-- Model of `configparser.ConfigParser().read(path)`: a missing file
yields no sections, INI text yields its sections, and current-format YAML
text (which opens with a `key: value` line or a brace rather than a
`[section]` header) makes `configparser` raise
`MissingSectionHeaderError`. -/
def configRead (fs : FS) (p : Path) :
    Except PyErr (List (PyStr × List (PyStr × PyStr))) :=
  match fs p with
  | Option.none => .ok []
  | some r =>
    match r.content with
    | .iniText sections => .ok sections
    | .ymlText _ => .error .missingSectionHeaderError

/-- Model of `yaml.safe_load` on the files this engine handles: a document
written by `yaml.safe_dump` loads back to itself, while INI text produced
by `ConfigParser.write` (a `[section]` header followed by `key = value`
lines) is not parseable YAML and raises a parser error.  An empty file
would load as `None`, on which the subsequent `config.keys()` of
`get_setting` raises `AttributeError`; both failure modes surface as an
exception out of `get_setting` and are collapsed into one error here. -/
def yamlLoad : FileContent → Except PyErr (List (PyStr × PyVal))
  | .ymlText doc => .ok doc
  | .iniText _ => .error .yamlParseError

/-- Assignment into an insertion-ordered mapping, replacing in place when
the key is present and appending otherwise, as Python dicts and
`configparser` sections do. -/
def dictSet {α : Type} : List (PyStr × α) → PyStr → α → List (PyStr × α)
  | [], k, v => [(k, v)]
  | (k2, v2) :: rest, k, v =>
    if k2 == k then (k2, v) :: rest else (k2, v2) :: dictSet rest k v

/-- Python `dict.update(**values)`: merge the entries left to right. -/
def dictUpdate {α : Type} (l : List (PyStr × α)) (vs : List (PyStr × α)) :
    List (PyStr × α) :=
  vs.foldl (fun acc kv => dictSet acc kv.1 kv.2) l

/-- Registry applicable to a section of a legacy config file (lines
137-140): the global one for the reserved `benchopt` section, the
benchmark one for any other section. -/
def sectionRegistry (env : Env) (sec : PyStr) : List (PyStr × PyVal) :=
  if sec == ch "benchopt" then DEFAULT_GLOBAL_CONFIG env
  else DEFAULT_BENCHMARK_CONFIG

/-- Registry applicable to a get/set query (lines 161-164 and 216-218):
the global one when no benchmark name is given, the benchmark one
otherwise. -/
def scopeRegistry (env : Env) : Option PyStr → List (PyStr × PyVal)
  | Option.none => DEFAULT_GLOBAL_CONFIG env
  | some _ => DEFAULT_BENCHMARK_CONFIG

/-- Effective default of a query (lines 222-223): an entry of the
caller-supplied overlay wins over the registry default. -/
def effectiveDefault (registry_default : PyVal) (name : PyStr) :
    Option (List (PyStr × PyVal)) → PyVal
  | Option.none => registry_default
  | some dc => (List.lookup name dc).getD registry_default

/-- Coercion of every key of one legacy section against the applicable
registry defaults, in file order: the dict comprehension of lines
142-145.  A key missing from the registry raises `KeyError` at
`default[key]`. -/
def sectionValues (default : List (PyStr × PyVal)) :
    List (PyStr × PyStr) → Except PyErr (List (PyStr × PyVal))
  | [] => .ok []
  | (key, raw) :: rest =>
    match List.lookup key default with
    | Option.none => .error (.keyError key)
    | some dv =>
      match parse_value (.str raw) dv with
      | .error e => .error e
      | .ok (v, _) =>
        match sectionValues default rest with
        | .error e => .error e
        | .ok vs => .ok ((key, v) :: vs)

/-- Section loop of `convert_ini_to_yml` (lines 136-149): the reserved
`benchopt` section merges into the top level of the new document, every
other section becomes a sub-namespace named after its benchmark. -/
def convertSections (env : Env) :
    List (PyStr × List (PyStr × PyStr)) → List (PyStr × PyVal) →
    Except PyErr (List (PyStr × PyVal))
  | [], config => .ok config
  | (sec, kvs) :: rest, config =>
    let default := sectionRegistry env sec
    match sectionValues default kvs with
    | .error e => .error e
    | .ok values =>
      let config :=
        if sec == ch "benchopt" then dictUpdate config values
        else dictSet config sec (.dict values)
      convertSections env rest config

/-- Embedding of `convert_ini_to_yml(config_file)` (lines 128-153): read
the legacy sections, rebuild the document, then create the sibling `.yml`
file with the restrictive mode and write the document into it.  The
legacy file itself is never removed.  The deprecation warning of lines
129-132 goes to the diagnostic side channel and is not tracked here. -/
def convert_ini_to_yml (env : Env) (fs : FS) (config_file : Path) :
    FS × Except PyErr Unit :=
  match configRead fs config_file with
  | .error e => (fs, .error e)
  | .ok sections =>
    match convertSections env sections [] with
    | .error e => (fs, .error e)
    | .ok config =>
      let target := config_file.with_suffix (ch ".yml")
      let fs2 := fsTouch fs target GLOBAL_CONFIG_FILE_MODE
      (fsWrite fs2 target (.ymlText config), .ok ())

/-- Message printed for an unknown option name in `set_setting` (lines
167-170), enumerating the valid names of the applicable registry. -/
def invalidSettingMessage (name bname : PyStr)
    (registry : List (PyStr × PyVal)) : PyStr :=
  ch "ERROR: " ++ name ++ ch " is not a setting for " ++ bname ++
  ch ". Possible settings are:\n  - " ++
  pyJoin (ch "\n  - ") (registry.map Prod.fst)

/-- Embedding of `set_setting(name, value, config_file, benchmark_name)`
(lines 156-188), called with an explicit `config_file`.  An unknown name
prints the usage message and raises `SystemExit(1)`; otherwise the file
is read with `configparser`, the serialised value is stored under the
`benchopt` or benchmark section, the file is created with the restrictive
mode when absent, and the whole document is written back in INI form by
`ConfigParser.write`.  A serialised value that is not a string would make
`configparser` raise on assignment, returned as `typeError`. -/
def set_setting (name : PyStr) (value : PyVal) (env : Env) (fs : FS)
    (config_file : Path) (benchmark_name : Option PyStr) :
    FS × Except PyErr Unit :=
  let bname := benchmark_name.getD (ch "benchopt")
  let default_config := scopeRegistry env benchmark_name
  match List.lookup name default_config with
  | Option.none =>
    (fs, .error (.systemExit 1 (invalidSettingMessage name bname default_config)))
  | some default_value =>
    match configRead fs config_file with
    | .error e => (fs, .error e)
    | .ok config =>
      let config :=
        if (List.lookup bname config).isSome then config
        else config ++ [(bname, [])]
      match reverse_parse default_value value with
      | .error e => (fs, .error e)
      | .ok (.str raw) =>
        let config :=
          dictSet config bname
            (dictSet ((List.lookup bname config).getD []) name raw)
        let fs2 := fsTouch fs config_file GLOBAL_CONFIG_FILE_MODE
        (fsWrite fs2 config_file (.iniText config), .ok ())
      | .ok _ => (fs, .error .typeError)

/-- Embedding of `get_setting(name, config_file, benchmark_name,
default_config)` (lines 191-252), called with an explicit `config_file`
(`config_file=None` goes through `get_global_config_file`, embedded
separately).  Resolution order: the registry assert, the caller-supplied
default overlay, migration of a `.ini` path, the store lookup (benchmark
sub-namespace when present, else the top level), the environment
override, and finally the type coercion against the effective default.
The returned state carries any migration the call performed. -/
def get_setting (name : PyStr) (env : Env) (fs : FS) (config_file : Path)
    (benchmark_name : Option PyStr)
    (default_config : Option (List (PyStr × PyVal))) :
    FS × Except PyErr PyVal :=
  match List.lookup name (scopeRegistry env benchmark_name) with
  | Option.none => (fs, .error .assertionError)
  | some registry_default =>
    let default_value := effectiveDefault registry_default name default_config
    let migrated : Except (FS × PyErr) (FS × Path) :=
      if config_file.suffix == ch ".ini" then
        match convert_ini_to_yml env fs config_file with
        | (fs2, .error e) => .error (fs2, e)
        | (fs2, .ok _) => .ok (fs2, config_file.with_suffix (ch ".yml"))
      else .ok (fs, config_file)
    match migrated with
    | .error (fs2, e) => (fs2, .error e)
    | .ok (fs2, cfile) =>
      let loaded : Except PyErr (List (PyStr × PyVal)) :=
        match fs2 cfile with
        | some r => yamlLoad r.content
        | Option.none => .ok []
      match loaded with
      | .error e => (fs2, .error e)
      | .ok config =>
        let fromStore : Except PyErr PyVal :=
          match benchmark_name with
          | some b =>
            match List.lookup b config with
            | some (.dict sub) => .ok ((List.lookup name sub).getD default_value)
            | some _ => .error .attributeError
            | Option.none => .ok ((List.lookup name config).getD default_value)
          | Option.none => .ok ((List.lookup name config).getD default_value)
        match fromStore with
        | .error e => (fs2, .error e)
        | .ok v0 =>
          let v1 :=
            match env (ch "BENCHOPT_" ++ pyUpper name) with
            | some txt => PyVal.str txt
            | Option.none => v0
          match parse_value v1 default_value with
          | .error e => (fs2, .error e)
          | .ok (v, _warns) => (fs2, .ok v)

/-- Composition `parse_value(reverse_parse(default, v), default)`: the
round trip of the type coercion module. -/
def roundParse (default_value v : PyVal) : Except PyErr (PyVal × List Diag) :=
  match reverse_parse default_value v with
  | .error e => .error e
  | .ok raw => parse_value raw default_value

/-- Values of the same shape as a default on which the coercion round
trip holds: booleans, strings, and lists whose elements are nonempty and
free of whitespace and commas (the separator characters of the stored
textual form). -/
def validShape : PyVal → PyVal → Bool
  | .bool _, .bool _ => true
  | .str _, .str _ => true
  | .list _, .list l => l.all (fun x => !x.isEmpty && x.all (fun c => !pySep c))
  | _, _ => false

/-- Formalisation of the list-coercion claim wording, for comparison with
the implementation: split the text on newlines and commas only, trim each
fragment, and drop empty fragments. -/
def claimSplitNlComma (s : PyStr) : List PyStr :=
  ((splitKeep (fun c => c == '\n' || c == ',') s).map pyStrip).filter
    (fun w => !w.isEmpty)

/-- Condition under which the store-reading path of `get_setting` cannot
raise: the file is absent, or it holds a YAML document whose entry at the
queried benchmark name, when present, is a mapping. -/
def storeReadable (fs : FS) (p : Path) (benchmark_name : Option PyStr) : Bool :=
  match fs p with
  | Option.none => true
  | some r =>
    match r.content with
    | .iniText _ => false
    | .ymlText doc =>
      match benchmark_name with
      | Option.none => true
      | some b =>
        match List.lookup b doc with
        | Option.none => true
        | some (.dict _) => true
        | some _ => false

/-- Condition triggering the `KeyError` of the migration loop: some
section of a legacy file holds a key unknown to its applicable registry. -/
def hasUnknownKey (env : Env)
    (sections : List (PyStr × List (PyStr × PyStr))) : Bool :=
  sections.any fun sk =>
    sk.2.any fun kv => (List.lookup kv.1 (sectionRegistry env sk.1)).isNone

/-- The empty file system: no config file exists anywhere. -/
def fsEmpty : FS := fun _ => Option.none

/-- An environment with no variables set. -/
def envEmpty : Env := fun _ => Option.none

/-- State after `set_setting("debug", True)` against a fresh project-local
store file carrying the canonical suffix. -/
def setDebugTrue : FS × Except PyErr Unit :=
  set_setting (ch "debug") (.bool true) envEmpty fsEmpty localConfigFile
    Option.none

/-- An environment in which only `BENCHOPT_DEBUG` is set, to `1`. -/
def envDebugOne : Env :=
  fun v => if v = ch "BENCHOPT_DEBUG" then some (ch "1") else Option.none

/-- A store file whose top level says `debug: false`. -/
def fsDebugFalse : FS := fun p =>
  if p = localConfigFile then
    some { content := .ymlText [(ch "debug", .bool false)],
           mode := GLOBAL_CONFIG_FILE_MODE }
  else Option.none

/-- A store file with a top-level `plot_configs` entry and no
sub-namespaces at all. -/
def fsTopLevelOnly : FS := fun p =>
  if p = localConfigFile then
    some { content := .ymlText [(ch "plot_configs", .str (ch "x"))],
           mode := GLOBAL_CONFIG_FILE_MODE }
  else Option.none

/-- The project-local legacy path `./benchopt.ini`. -/
def legacyConfigFile : Path :=
  { dir := ch ".", stem := ch "benchopt", suffix := ch ".ini" }

/-- A legacy file matching the migration claim verbatim: a benchmark
section `bench1` holding `opt: true` and the reserved section holding
`debug: yes`. -/
def fsLegacyOpt : FS := fun p =>
  if p = legacyConfigFile then
    some { content := .iniText [(ch "bench1", [(ch "opt", ch "true")]),
                                (ch "benchopt", [(ch "debug", ch "yes")])],
           mode := GLOBAL_CONFIG_FILE_MODE }
  else Option.none

/-- A legacy file of the same shape but with the registered benchmark
option `plots` in place of the unregistered `opt`. -/
def fsLegacyPlots : FS := fun p =>
  if p = legacyConfigFile then
    some { content := .iniText [(ch "benchopt", [(ch "debug", ch "yes")]),
                                (ch "bench1", [(ch "plots", ch "a")])],
           mode := GLOBAL_CONFIG_FILE_MODE }
  else Option.none

/-- State and outcome of migrating the legacy file with registered keys. -/
def convLegacyPlots : FS × Except PyErr Unit :=
  convert_ini_to_yml envEmpty fsLegacyPlots legacyConfigFile

/-!
Lemmas about the splitting primitives underlying the list coercion.
-/


theorem splitKeep_ne_nil (p : Char → Bool) (s : List Char) : splitKeep p s ≠ [] := by
  cases s with
  | nil => simp [splitKeep]
  | cons c cs =>
    simp only [splitKeep]
    split
    · simp
    · split <;> simp

theorem splitKeep_cons_pos (p : Char → Bool) (c : Char) (cs : List Char)
    (h : p c = true) : splitKeep p (c :: cs) = [] :: splitKeep p cs := by
  simp [splitKeep, h]

theorem splitKeep_cons_neg (p : Char → Bool) (c : Char) (cs : List Char)
    (t : List Char) (ts : List (List Char)) (h : p c = false)
    (hr : splitKeep p cs = t :: ts) :
    splitKeep p (c :: cs) = (c :: t) :: ts := by
  simp [splitKeep, h, hr]

theorem splitKeep_mem_not (p : Char → Bool) :
    ∀ (s : List Char), ∀ w ∈ splitKeep p s, ∀ c ∈ w, p c = false := by
  intro s
  induction s with
  | nil =>
    intro w hw c hc
    simp [splitKeep] at hw
    subst hw
    simp at hc
  | cons a as ih =>
    intro w hw c hc
    by_cases hpa : p a
    · rw [splitKeep_cons_pos p a as hpa] at hw
      rcases List.mem_cons.mp hw with h | h
      · subst h; simp at hc
      · exact ih w h c hc
    · obtain ⟨t, ts, hts⟩ := List.exists_cons_of_ne_nil (splitKeep_ne_nil p as)
      rw [splitKeep_cons_neg p a as t ts (by simp [hpa]) hts] at hw
      rcases List.mem_cons.mp hw with h | h
      · subst h
        rcases List.mem_cons.mp hc with h2 | h2
        · subst h2; simp [hpa]
        · exact ih t (by rw [hts]; exact List.mem_cons_self t ts) c h2
      · exact ih w (by rw [hts]; exact List.mem_cons_of_mem t h) c hc

theorem splitKeep_mem_mem (p : Char → Bool) :
    ∀ (s : List Char), ∀ w ∈ splitKeep p s, ∀ c ∈ w, c ∈ s := by
  intro s
  induction s with
  | nil =>
    intro w hw c hc
    simp [splitKeep] at hw
    subst hw
    simp at hc
  | cons a as ih =>
    intro w hw c hc
    by_cases hpa : p a
    · rw [splitKeep_cons_pos p a as hpa] at hw
      rcases List.mem_cons.mp hw with h | h
      · subst h; simp at hc
      · exact List.mem_cons_of_mem a (ih w h c hc)
    · obtain ⟨t, ts, hts⟩ := List.exists_cons_of_ne_nil (splitKeep_ne_nil p as)
      rw [splitKeep_cons_neg p a as t ts (by simp [hpa]) hts] at hw
      rcases List.mem_cons.mp hw with h | h
      · subst h
        rcases List.mem_cons.mp hc with h2 | h2
        · subst h2; simp
        · exact List.mem_cons_of_mem a
            (ih t (by rw [hts]; exact List.mem_cons_self t ts) c h2)
      · exact List.mem_cons_of_mem a
          (ih w (by rw [hts]; exact List.mem_cons_of_mem t h) c hc)

theorem splitKeep_or (p q : Char → Bool) (s : List Char) :
    splitKeep (fun c => p c || q c) s = (splitKeep p s).flatMap (splitKeep q) := by
  induction s with
  | nil => simp [splitKeep]
  | cons a as ih =>
    by_cases hpa : p a
    · rw [splitKeep_cons_pos _ a as (by simp [hpa]),
        splitKeep_cons_pos p a as hpa, List.flatMap_cons]
      simp [splitKeep, ih]
    · obtain ⟨t, ts, hts⟩ := List.exists_cons_of_ne_nil (splitKeep_ne_nil p as)
      rw [splitKeep_cons_neg p a as t ts (by simp [hpa]) hts, List.flatMap_cons]
      by_cases hqa : q a
      · rw [splitKeep_cons_pos _ a as (by simp [hpa, hqa]),
          splitKeep_cons_pos q a t hqa, ih, hts, List.flatMap_cons]
        simp
      · obtain ⟨u, us, hus⟩ := List.exists_cons_of_ne_nil (splitKeep_ne_nil q t)
        have ih2 : splitKeep (fun c => p c || q c) as = u :: (us ++ ts.flatMap (splitKeep q)) := by
          rw [ih, hts, List.flatMap_cons, hus]
          simp
        rw [splitKeep_cons_neg _ a as u (us ++ ts.flatMap (splitKeep q)) (by simp [hpa, hqa]) ih2,
          splitKeep_cons_neg q a t u us (by simp [hqa]) hus]
        simp


theorem splitKeep_all_not (p : Char → Bool) (s : List Char)
    (h : ∀ c ∈ s, p c = false) : splitKeep p s = [s] := by
  induction s with
  | nil => rfl
  | cons a as ih =>
    have ha : p a = false := h a (List.mem_cons_self a as)
    have hrest := ih (fun c hc => h c (List.mem_cons_of_mem a hc))
    exact splitKeep_cons_neg p a as as [] ha hrest

theorem splitKeep_append (p : Char → Bool) (x r t : List Char)
    (ts : List (List Char)) (hx : ∀ c ∈ x, p c = false)
    (hr : splitKeep p r = t :: ts) :
    splitKeep p (x ++ r) = (x ++ t) :: ts := by
  induction x with
  | nil => simpa using hr
  | cons a as ih =>
    have ha : p a = false := hx a (List.mem_cons_self a as)
    have h2 := ih (fun c hc => hx c (List.mem_cons_of_mem a hc))
    simpa using splitKeep_cons_neg p a (as ++ r) (as ++ t) ts ha h2

theorem pyStrip_eq_self (s : PyStr) (h : ∀ c ∈ s, pyIsSpace c = false) :
    pyStrip s = s := by
  have h1 : s.dropWhile pyIsSpace = s := by
    cases s with
    | nil => rfl
    | cons a as =>
      rw [List.dropWhile_cons_of_neg]
      simp [h a (List.mem_cons_self a as)]
  have h2 : s.reverse.dropWhile pyIsSpace = s.reverse := by
    cases hs : s.reverse with
    | nil => rfl
    | cons a as =>
      rw [List.dropWhile_cons_of_neg]
      have ha : a ∈ s := by
        have : a ∈ s.reverse := by
          rw [hs]
          exact List.mem_cons_self a as
        simpa using this
      simp [h a ha]
  rw [pyStrip, h1, h2, List.reverse_reverse]

theorem filter_flatMap {α β : Type} (l : List α) (f : α → List β) (q : β → Bool) :
    (l.flatMap f).filter q = l.flatMap (fun a => (f a).filter q) := by
  induction l with
  | nil => rfl
  | cons a as ih => simp [List.flatMap_cons, List.filter_append, ih]

theorem flatMap_filter_ne {β : Type} (l : List PyStr) (f : PyStr → List β)
    (hf : f [] = []) :
    (l.filter (fun w => !w.isEmpty)).flatMap f = l.flatMap f := by
  induction l with
  | nil => rfl
  | cons a as ih =>
    by_cases ha : a.isEmpty
    · have ha2 : a = [] := by simpa [List.isEmpty_iff] using ha
      subst ha2
      simp [List.flatMap_cons, hf, ih, List.filter_cons]
    · simp [List.filter_cons, ha, List.flatMap_cons, ih]

theorem listCoerce_eq (s : PyStr) :
    (pySplitWs s).flatMap
        (fun v => ((pySplitComma v).filter (fun w => !w.isEmpty)).map pyStrip) =
      (splitKeep pySep s).filter (fun w => !w.isEmpty) := by
  have hsep : splitKeep pySep s =
      (splitKeep pyIsSpace s).flatMap (splitKeep (fun c => c == ',')) :=
    splitKeep_or pyIsSpace (fun c => c == ',') s
  rw [hsep, filter_flatMap, pySplitWs, flatMap_filter_ne _ _ (by rfl)]
  refine List.flatMap_congr (fun v hv => ?_)
  have hmap : ∀ w ∈ (pySplitComma v).filter (fun w => !w.isEmpty),
      pyStrip w = id w := by
    intro w hw
    have hw2 : w ∈ pySplitComma v := (List.mem_filter.mp hw).1
    refine pyStrip_eq_self w (fun c hc => ?_)
    have hcv : c ∈ v := splitKeep_mem_mem _ v w hw2 c hc
    exact splitKeep_mem_not pyIsSpace s v hv c hcv
  rw [List.map_congr_left hmap, List.map_id]
  rfl

theorem splitKeep_join (p : Char → Bool) (hn : p '\n' = true) :
    ∀ (l : List PyStr),
      (∀ x ∈ l, ¬x = [] ∧ ∀ c ∈ x, p c = false) →
      (splitKeep p (pyJoin (ch "\n") l)).filter (fun w => !w.isEmpty) = l := by
  intro l
  induction l with
  | nil => intro _; rfl
  | cons x xs ih =>
    intro h
    obtain ⟨hx0, hxc⟩ := h x (List.mem_cons_self x xs)
    have hxe : x.isEmpty = false := by
      cases x with
      | nil => exact absurd rfl hx0
      | cons a as => rfl
    cases xs with
    | nil =>
      have hone : splitKeep p (pyJoin (ch "\n") [x]) = [x] :=
        splitKeep_all_not p x hxc
      rw [hone]
      simp [List.filter_cons, hxe]
    | cons y ys =>
      have hJ : pyJoin (ch "\n") (x :: y :: ys) =
          x ++ ('\n' :: pyJoin (ch "\n") (y :: ys)) := by
        simp [pyJoin, ch]
      have hr : splitKeep p ('\n' :: pyJoin (ch "\n") (y :: ys)) =
          [] :: splitKeep p (pyJoin (ch "\n") (y :: ys)) :=
        splitKeep_cons_pos p _ _ hn
      have ihr := ih (fun z hz => h z (List.mem_cons_of_mem x hz))
      rw [hJ, splitKeep_append p x _ [] _ hxc hr]
      simp only [List.filter_cons, List.append_nil, hxe]
      rw [ihr]
      simp

/-!
Settlement of the behavioural claims about the engine.
-/


theorem parse_str_ok (s : PyStr) (dv : PyVal) :
    ∃ out, parse_value (.str s) dv = .ok out := by
  cases dv with
  | bool db =>
    cases h : List.lookup (pyLower s) BOOLEAN_STATES with
    | none =>
      exact ⟨(.bool db, [.warnUnparsableBool (pyLower s)]),
        by simp [parse_value, h]⟩
    | some b => exact ⟨(.bool b, []), by simp [parse_value, h]⟩
  | str ds => exact ⟨_, rfl⟩
  | list dl => exact ⟨_, rfl⟩
  | none => exact ⟨_, rfl⟩
  | dict dd => exact ⟨_, rfl⟩

/-- Claim C5 (amended): with a list-shaped default, `parse_value` splits
a textual input at every whitespace character and every comma, drops the
empty fragments and preserves their order; in particular the claimed
example text parses to `["a", "b", "c"]`. -/
theorem parse_list_splits_on_whitespace_and_comma :
    (∀ (s : PyStr) (d : List PyStr),
        parse_value (.str s) (.list d) =
          .ok (.list ((splitKeep pySep s).filter (fun w => !w.isEmpty)), [])) ∧
      parse_value (.str (ch "a, b\nc")) (.list []) =
        .ok (.list [ch "a", ch "b", ch "c"], []) := by
  constructor
  · intro s d
    show Except.ok (PyVal.list ((pySplitWs s).flatMap fun v =>
        ((pySplitComma v).filter (fun w => !w.isEmpty)).map pyStrip), ([] : List Diag)) = _
    rw [listCoerce_eq]
  · rfl

/-- Claim C5 (counterexample): on the input `"a b"`, which holds neither
newline nor comma, the implementation returns the two fragments
`["a", "b"]`, while the split on newlines and commas described by the
claim keeps the single trimmed fragment `["a b"]`. -/
theorem parse_list_splits_on_plain_space :
    parse_value (.str (ch "a b")) (.list []) = .ok (.list [ch "a", ch "b"], []) ∧
      claimSplitNlComma (ch "a b") = [ch "a b"] ∧
      ([ch "a", ch "b"] : List PyStr) ≠ [ch "a b"] :=
  ⟨rfl, rfl, by decide⟩

/-- Claim C2 (amended): `parse_value(reverse_parse(default, v), default)`
returns `v` for every boolean `v`, every string `v`, and every list `v`
whose elements are nonempty and free of whitespace and commas. -/
theorem roundtrip_holds_on_separator_free_values (d v : PyVal) (h : validShape d v = true) :
    roundParse d v = .ok (v, []) := by
  cases d with
  | bool db =>
    cases v with
    | bool b => cases b <;> cases db <;> rfl
    | str s => simp [validShape] at h
    | list l => simp [validShape] at h
    | none => simp [validShape] at h
    | dict dd => simp [validShape] at h
  | str ds =>
    cases v with
    | bool b => simp [validShape] at h
    | str s => rfl
    | list l => simp [validShape] at h
    | none => simp [validShape] at h
    | dict dd => simp [validShape] at h
  | list dl =>
    cases v with
    | bool b => simp [validShape] at h
    | str s => simp [validShape] at h
    | none => simp [validShape] at h
    | dict dd => simp [validShape] at h
    | list l =>
      have hv : ∀ x ∈ l, ¬x = [] ∧ ∀ c ∈ x, pySep c = false := by
        simpa [validShape] using h
      have hmain : ((pySplitWs ('\n' :: pyJoin (ch "\n") l)).flatMap fun v =>
          ((pySplitComma v).filter (fun w => !w.isEmpty)).map pyStrip) = l := by
        rw [listCoerce_eq, splitKeep_cons_pos pySep '\n' _ (by decide)]
        have hfil : List.filter (fun w => !w.isEmpty)
            ([] :: splitKeep pySep (pyJoin (ch "\n") l)) =
            List.filter (fun w => !w.isEmpty)
              (splitKeep pySep (pyJoin (ch "\n") l)) := by
          simp [List.filter_cons]
        rw [hfil]
        exact splitKeep_join pySep (by decide) l hv
      show parse_value (.str ('\n' :: pyJoin (ch "\n") l)) (.list dl) = .ok (.list l, [])
      show Except.ok (PyVal.list ((pySplitWs ('\n' :: pyJoin (ch "\n") l)).flatMap fun v =>
          ((pySplitComma v).filter (fun w => !w.isEmpty)).map pyStrip), ([] : List Diag)) = _
      rw [hmain]
  | none =>
    cases v <;> simp [validShape] at h
  | dict dd =>
    cases v <;> simp [validShape] at h

/-- Claim C2 (counterexample): the round trip loses the list
`["a,b"]`, whose single element contains a comma: it comes back as
`["a", "b"]`. -/
theorem roundtrip_fails_on_comma_element :
    roundParse (.list []) (.list [ch "a,b"]) = .ok (.list [ch "a", ch "b"], []) ∧
      ([ch "a", ch "b"] : List PyStr) ≠ [ch "a,b"] :=
  ⟨rfl, by decide⟩

/-- Claim C2 (witness): the amended round trip evaluated on the concrete
list `["a", "b"]`. -/
theorem roundtrip_separator_free_witness :
    validShape (.list []) (.list [ch "a", ch "b"]) = true ∧
      roundParse (.list []) (.list [ch "a", ch "b"]) =
        .ok (.list [ch "a", ch "b"], []) :=
  ⟨by decide, roundtrip_holds_on_separator_free_values _ _ (by decide)⟩

/-- Claim C8: with a boolean default, `parse_value` never raises on a
textual token: a token of the fixed table (matched after lowercasing,
hence case-insensitively) yields the corresponding boolean with no
diagnostic, and any other token yields the default together with one
diagnostic. -/
theorem parse_bool_soft_fallback (s : PyStr) (d : Bool) :
    parse_value (.str s) (.bool d) =
      (match List.lookup (pyLower s) BOOLEAN_STATES with
       | some b => Except.ok (PyVal.bool b, ([] : List Diag))
       | Option.none =>
         Except.ok (PyVal.bool d, [Diag.warnUnparsableBool (pyLower s)])) := by
  cases h : List.lookup (pyLower s) BOOLEAN_STATES <;> simp [parse_value, h]


theorem sectionValues_err_of_unknown (default : List (PyStr × PyVal)) :
    ∀ (kvs : List (PyStr × PyStr)),
      (kvs.any fun kv => (List.lookup kv.1 default).isNone) = true →
      ∃ k, sectionValues default kvs = .error (.keyError k) := by
  intro kvs
  induction kvs with
  | nil => intro h; simp at h
  | cons kv rest ih =>
    intro h
    obtain ⟨k, raw⟩ := kv
    cases hk : List.lookup k default with
    | none => exact ⟨k, by simp [sectionValues, hk]⟩
    | some dv =>
      have hrest : (rest.any fun kv => (List.lookup kv.1 default).isNone) = true := by
        rw [List.any_cons] at h
        rcases Bool.or_eq_true_iff.mp h with hbad | hr
        · rw [show ((k, raw).1 : PyStr) = k from rfl, hk] at hbad
          simp at hbad
        · exact hr
      obtain ⟨k2, hk2⟩ := ih hrest
      obtain ⟨⟨v, warns⟩, hout⟩ := parse_str_ok raw dv
      exact ⟨k2, by simp [sectionValues, hk, hout, hk2]⟩

theorem sectionValues_error_shape (default : List (PyStr × PyVal)) :
    ∀ (kvs : List (PyStr × PyStr)) (e : PyErr),
      sectionValues default kvs = .error e → ∃ k, e = .keyError k := by
  intro kvs
  induction kvs with
  | nil => intro e he; simp [sectionValues] at he
  | cons kv rest ih =>
    intro e he
    obtain ⟨k, raw⟩ := kv
    cases hk : List.lookup k default with
    | none =>
      simp only [sectionValues, hk] at he
      refine ⟨k, ?_⟩
      injection he with h2
      exact h2.symm
    | some dv =>
      obtain ⟨⟨v, warns⟩, hout⟩ := parse_str_ok raw dv
      simp only [sectionValues, hk, hout] at he
      cases hrest : sectionValues default rest with
      | error e2 =>
        simp only [hrest] at he
        obtain ⟨k2, hk2⟩ := ih e2 hrest
        injection he with h2
        exact ⟨k2, h2.symm.trans hk2⟩
      | ok vs =>
        simp only [hrest] at he
        simp at he

theorem convertSections_err (env : Env) :
    ∀ (sections : List (PyStr × List (PyStr × PyStr)))
      (config : List (PyStr × PyVal)),
      hasUnknownKey env sections = true →
      ∃ k, convertSections env sections config = .error (.keyError k) := by
  intro sections
  induction sections with
  | nil => intro config h; simp [hasUnknownKey] at h
  | cons sk rest ih =>
    intro config h
    obtain ⟨sec, kvs⟩ := sk
    rw [hasUnknownKey, List.any_cons] at h
    cases hsv : sectionValues (sectionRegistry env sec) kvs with
    | error e =>
      obtain ⟨k, hke⟩ := sectionValues_error_shape _ kvs e hsv
      refine ⟨k, ?_⟩
      simp only [convertSections, hsv, hke]
    | ok values =>
      have hrest : hasUnknownKey env rest = true := by
        rcases Bool.or_eq_true_iff.mp h with hbad | hr
        · obtain ⟨k, hk⟩ := sectionValues_err_of_unknown _ kvs hbad
          rw [hsv] at hk
          exact absurd hk (by simp)
        · exact hr
      obtain ⟨k, hk⟩ := ih
        (if sec == ch "benchopt" then dictUpdate config values
         else dictSet config sec (PyVal.dict values)) hrest
      refine ⟨k, ?_⟩
      simp only [convertSections, hsv]
      exact hk

/-- Claim C10: a legacy file holding, in any section, a key unknown to
the applicable registry makes the migration raise a `KeyError` before the
current-format file is created or written, so the file system is
unchanged. -/
theorem migration_unknown_key_raises (env : Env) (fs : FS) (p : Path) (m : Nat)
    (sections : List (PyStr × List (PyStr × PyStr)))
    (hfs : fs p = some { content := .iniText sections, mode := m })
    (hbad : hasUnknownKey env sections = true) :
    (convert_ini_to_yml env fs p).1 = fs ∧
      ∃ k, (convert_ini_to_yml env fs p).2 = .error (.keyError k) := by
  obtain ⟨k, hk⟩ := convertSections_err env sections [] hbad
  refine ⟨?_, k, ?_⟩ <;> simp [convert_ini_to_yml, configRead, hfs, hk]

/-- Claim C10 (witness): the migration failure evaluated on the concrete
legacy file with the unregistered key `opt`. -/
theorem migration_unknown_key_raises_witness :
    (convert_ini_to_yml envEmpty fsLegacyOpt legacyConfigFile).1 = fsLegacyOpt ∧
      ∃ k, (convert_ini_to_yml envEmpty fsLegacyOpt legacyConfigFile).2 =
        .error (.keyError k) :=
  migration_unknown_key_raises envEmpty fsLegacyOpt legacyConfigFile GLOBAL_CONFIG_FILE_MODE
    [(ch "bench1", [(ch "opt", ch "true")]),
     (ch "benchopt", [(ch "debug", ch "yes")])] rfl (by decide)


theorem match_map_parse (fs : FS) (x : Except PyErr (PyVal × List Diag)) :
    (match x with
     | Except.error e => (fs, Except.error e)
     | Except.ok (v, _warns) => (fs, Except.ok v)) =
      (fs, x.map Prod.fst) := by
  rcases x with e | ⟨v, w⟩ <;> rfl

/-- Claim C7: `set_setting` on a name outside the applicable registry
terminates with `SystemExit(1)` carrying the usage message that
enumerates the valid option names, and leaves the file system exactly as
it was. -/
theorem set_setting_unknown_name_exits (name : PyStr) (value : PyVal) (env : Env) (fs : FS)
    (cfg : Path) (bn : Option PyStr)
    (hname : List.lookup name (scopeRegistry env bn) = Option.none) :
    set_setting name value env fs cfg bn =
      (fs, .error (.systemExit 1
        (invalidSettingMessage name (bn.getD (ch "benchopt"))
          (scopeRegistry env bn)))) := by
  simp only [set_setting, hname]

/-- Claim C7 (witness): the unknown name `nope` evaluated against the
global registry on an empty file system. -/
theorem set_setting_unknown_name_exits_witness :
    set_setting (ch "nope") (.bool true) envEmpty fsEmpty localConfigFile
        Option.none =
      (fsEmpty, .error (.systemExit 1
        (invalidSettingMessage (ch "nope") (ch "benchopt")
          (scopeRegistry envEmpty Option.none)))) :=
  set_setting_unknown_name_exits (ch "nope") (.bool true) envEmpty fsEmpty localConfigFile
    Option.none rfl

/-- Claim C4: whenever the variable `BENCHOPT_<NAME>` is set in the
environment, `get_setting` returns the coercion of its text against the
effective default and leaves the state untouched, whatever the readable
store document or the defaults contain. -/
theorem env_override_wins (name txt : PyStr) (env : Env) (fs : FS) (config_file : Path)
    (bn : Option PyStr) (dco : Option (List (PyStr × PyVal))) (rdv : PyVal)
    (hname : List.lookup name (scopeRegistry env bn) = some rdv)
    (henv : env (ch "BENCHOPT_" ++ pyUpper name) = some txt)
    (hsuf : (config_file.suffix == ch ".ini") = false)
    (hread : storeReadable fs config_file bn = true) :
    get_setting name env fs config_file bn dco =
      (fs, (parse_value (.str txt) (effectiveDefault rdv name dco)).map
        Prod.fst) := by
  unfold get_setting
  rw [hname]
  simp only [hsuf, Bool.false_eq_true, if_false]
  cases hfs : fs config_file with
  | none =>
    simp only [henv]
    cases bn with
    | none => exact match_map_parse fs _
    | some b => exact match_map_parse fs _
  | some r =>
    cases hc : r.content with
    | iniText sections => simp [storeReadable, hfs, hc] at hread
    | ymlText doc =>
      simp only [hc, yamlLoad, henv]
      cases bn with
      | none => exact match_map_parse fs _
      | some b =>
        simp only [storeReadable, hfs, hc] at hread
        cases hb : List.lookup b doc with
        | none =>
          simp only [hb]
          exact match_map_parse fs _
        | some v =>
          cases v with
          | dict sub =>
            simp only [hb]
            exact match_map_parse fs _
          | bool b2 => rw [hb] at hread; simp at hread
          | str s2 => rw [hb] at hread; simp at hread
          | list l2 => rw [hb] at hread; simp at hread
          | none => rw [hb] at hread; simp at hread


/-- Claim C4 (witness): with `BENCHOPT_DEBUG=1` in the environment and a
store saying `debug: false`, resolution returns `True`. -/
theorem env_override_wins_witness :
    get_setting (ch "debug") envDebugOne fsDebugFalse localConfigFile
        Option.none Option.none = (fsDebugFalse, .ok (.bool true)) := by
  have h := env_override_wins (ch "debug") (ch "1") envDebugOne fsDebugFalse
    localConfigFile Option.none Option.none (.bool false) rfl rfl rfl rfl
  rw [h]
  rfl

/-- Claim C6 (amended): a benchmark-scoped query with no environment
override on a store that contains no sub-namespace for that scope reads
the top-level entry under the queried key, and only falls back to the
effective default when the top level has no such entry either. -/
theorem benchmark_scope_falls_back_to_top_level (name b : PyStr) (env : Env) (fs : FS) (cfg : Path)
    (doc : List (PyStr × PyVal)) (r : FileRec)
    (dco : Option (List (PyStr × PyVal))) (rdv : PyVal)
    (hname : List.lookup name DEFAULT_BENCHMARK_CONFIG = some rdv)
    (henv : env (ch "BENCHOPT_" ++ pyUpper name) = Option.none)
    (hsuf : (cfg.suffix == ch ".ini") = false)
    (hfs : fs cfg = some r) (hc : r.content = .ymlText doc)
    (hb : List.lookup b doc = Option.none) :
    get_setting name env fs cfg (some b) dco =
      (fs, (parse_value ((List.lookup name doc).getD
          (effectiveDefault rdv name dco))
        (effectiveDefault rdv name dco)).map Prod.fst) := by
  unfold get_setting
  rw [show scopeRegistry env (some b) = DEFAULT_BENCHMARK_CONFIG from rfl, hname]
  simp only [hsuf, Bool.false_eq_true, if_false, hfs, hc, yamlLoad, hb, henv]
  exact match_map_parse fs _

/-- Claim C6 (witness): the amended fallback evaluated on the concrete
store with one top-level entry. -/
theorem benchmark_scope_fallback_witness :
    get_setting (ch "plot_configs") envEmpty fsTopLevelOnly localConfigFile
        (some (ch "bench1")) Option.none =
      (fsTopLevelOnly, .ok (.str (ch "x"))) := by
  have h := benchmark_scope_falls_back_to_top_level (ch "plot_configs") (ch "bench1") envEmpty fsTopLevelOnly
    localConfigFile [(ch "plot_configs", .str (ch "x"))]
    { content := .ymlText [(ch "plot_configs", .str (ch "x"))],
      mode := GLOBAL_CONFIG_FILE_MODE }
    Option.none (.dict []) rfl rfl rfl rfl rfl rfl
  rw [h]
  rfl

/-- Claim C6 (counterexample): with a store holding only a top-level
`plot_configs` entry and no `bench1` sub-namespace, the benchmark-scoped
query returns the stored top-level string rather than the registry
default mapping the claim requires. -/
theorem benchmark_scope_reads_top_level :
    (get_setting (ch "plot_configs") envEmpty fsTopLevelOnly localConfigFile
        (some (ch "bench1")) Option.none).2 = .ok (.str (ch "x")) ∧
      PyVal.str (ch "x") ≠ PyVal.dict [] :=
  ⟨rfl, by simp⟩

/-- Claim C3 (amended): with no override and no config file present in
canonical or legacy form at either candidate location, the locator
returns the user-home canonical path. -/
theorem locator_returns_home_when_none_exist (fs : FS)
    (h1 : fs localConfigFile = Option.none)
    (h2 : fs (localConfigFile.with_suffix (ch ".ini")) = Option.none)
    (h3 : fs homeConfigFile = Option.none)
    (h4 : fs (homeConfigFile.with_suffix (ch ".ini")) = Option.none) :
    get_global_config_file Option.none fs = .ok (homeConfigFile, []) := by
  simp [get_global_config_file, check_ini, modeWarning, h1, h2, h3, h4]

/-- Claim C3 (witness): the amended locator result evaluated on the
empty file system. -/
theorem locator_home_default_witness :
    get_global_config_file Option.none fsEmpty = .ok (homeConfigFile, []) :=
  locator_returns_home_when_none_exist fsEmpty rfl rfl rfl rfl

/-- Claim C3 (counterexample): on an empty file system the locator
returns the user-home canonical path, which differs from the
project-local canonical path named by the claim. -/
theorem locator_defaults_to_home_not_local :
    get_global_config_file Option.none fsEmpty = .ok (homeConfigFile, []) ∧
      homeConfigFile ≠ localConfigFile :=
  ⟨rfl, by decide⟩

/-- Claim C1 (code bug): `set_setting("debug", True)` on a fresh store
file with the canonical suffix succeeds and writes INI-format text
through `ConfigParser.write`, after which `get_setting("debug")` on the
very same file raises a YAML parse error instead of returning `True`:
the immediate set/get round trip promised by the claim never returns
the stored value. -/
theorem set_get_roundtrip_crashes :
    setDebugTrue.2 = .ok () ∧
      setDebugTrue.1 localConfigFile =
        some { content := .iniText [(ch "benchopt", [(ch "debug", ch "true")])],
               mode := GLOBAL_CONFIG_FILE_MODE } ∧
      (get_setting (ch "debug") envEmpty setDebugTrue.1 localConfigFile
          Option.none Option.none).2 = .error .yamlParseError :=
  ⟨rfl, rfl, rfl⟩

/-- Claim C9 (counterexample): on the verbatim claimed scenario, with
`opt: true` under `bench1`, the migration raises `KeyError("opt")`
because `opt` is not a registered benchmark option, no current-format
file is produced, and the subsequent resolution raises instead of
returning `True`. -/
theorem migration_claim_scenario_keyerror :
    (convert_ini_to_yml envEmpty fsLegacyOpt legacyConfigFile).2 =
        .error (.keyError (ch "opt")) ∧
      (convert_ini_to_yml envEmpty fsLegacyOpt legacyConfigFile).1
          (legacyConfigFile.with_suffix (ch ".yml")) = Option.none ∧
      (get_setting (ch "debug") envEmpty fsLegacyOpt legacyConfigFile
          Option.none Option.none).2 = .error (.keyError (ch "opt")) :=
  ⟨rfl, rfl, rfl⟩

/-- Claim C9 (amended): migrating a legacy file whose `bench1` section
holds the registered option `plots: a` and whose reserved section holds
`debug: yes` creates the sibling current-format file with the restrictive
owner-only mode, leaves the legacy file in place, and afterwards
resolution returns `True` for `debug` and `["a"]` for `plots` in scope
`bench1`. -/
theorem migration_preserves_registered_values :
    convLegacyPlots.2 = .ok () ∧
      convLegacyPlots.1 (legacyConfigFile.with_suffix (ch ".yml")) =
        some { content := .ymlText
                 [(ch "debug", .bool true),
                  (ch "bench1", .dict [(ch "plots", .list [ch "a"])])],
               mode := GLOBAL_CONFIG_FILE_MODE } ∧
      convLegacyPlots.1 legacyConfigFile = fsLegacyPlots legacyConfigFile ∧
      (get_setting (ch "debug") envEmpty convLegacyPlots.1
          (legacyConfigFile.with_suffix (ch ".yml")) Option.none
          Option.none).2 = .ok (.bool true) ∧
      (get_setting (ch "plots") envEmpty convLegacyPlots.1
          (legacyConfigFile.with_suffix (ch ".yml")) (some (ch "bench1"))
          Option.none).2 = .ok (.list [ch "a"]) :=
  ⟨rfl, rfl, rfl, rfl, rfl⟩

end BenchoptConfig
